import Mathlib

deriving instance DecidableEq for Except

namespace MagicMock

/-! # Magic Mock: quiz pipeline and session state machine

Shallow embedding of the quiz candidate validator found in
src/services/geminiService.ts (the validation loop of generateQuiz and
the batch branch of translateText) and of the quiz session state machine
of the QuizScreen component together with handleQuizComplete in App.tsx.
-/

/-! ## Candidate data as received from the provider -/

/-- The character class stripped by the ECMAScript `String.prototype.trim`:
WhiteSpace (tab, vertical tab, form feed, space, no-break space,
zero-width no-break space and the Unicode space separators) together
with the LineTerminator characters. -/
def jsWhitespaceChar (c : Char) : Bool :=
  c == ' ' || c == '\t' || c == '\n' || c == '\r' || c == '\x0b' || c == '\x0c' ||
  c == '\u00A0' || c == '\u1680' || ('\u2000' ≤ c && c ≤ '\u200A') ||
  c == '\u2028' || c == '\u2029' || c == '\u202F' || c == '\u205F' ||
  c == '\u3000' || c == '\uFEFF'

/-- The ECMAScript `String.prototype.trim`, written over the character
list: drop the whitespace run at each end. -/
def jsTrim (s : String) : String :=
  String.mk (((s.data.dropWhile jsWhitespaceChar).reverse.dropWhile jsWhitespaceChar).reverse)

/-- One entry of a candidate options array: either a JSON string or some
non-string JSON value (the source tests `typeof opt !== 'string'`). -/
inductive CandVal
  | str (s : String)
  | nonstr
deriving DecidableEq, Repr

/-- A question of the parsed provider payload, before validation.
`questionText` and `explanation` may be absent (the validator never reads
them); `options := none` stands for a missing or non-array options field
(the source tests `!q.options || !Array.isArray(q.options)`, and both
failures take the same branch). -/
structure CandidateQuestion where
  questionText : Option String
  questionType : String
  options : Option (List CandVal)
  correctAnswer : String
  explanation : Option String
deriving DecidableEq, Repr

/-- The parsed provider payload for a whole quiz; `questions := none`
stands for a missing or non-array questions field. -/
structure CandidateQuiz where
  topic : String
  questions : Option (List CandidateQuestion)
deriving DecidableEq, Repr

/-- The distinct throw sites of the validation loop in generateQuiz. -/
inductive ValidationError
  | missingQuestions
  | invalidOptions
  | answerNotInOptions
  | unknownQuestionType (tag : String)
deriving DecidableEq, Repr

/-- The options check of generateQuiz for a multiple-choice question:
`q.options.length !== 4 || q.options.some(opt => typeof opt !== 'string' || opt.trim() === '')`. -/
def mcBadOptions (xs : List CandVal) : Bool :=
  xs.length != 4 || xs.any fun v =>
    match v with
    | .str s => jsTrim s == ""
    | .nonstr => true

/-- The membership check `q.options.includes(q.correctAnswer)`:
strict equality of the string `ans` with each entry, so a non-string
entry never matches. -/
def optionsInclude (xs : List CandVal) (ans : String) : Bool :=
  xs.any fun v =>
    match v with
    | .str s => s == ans
    | .nonstr => false

/-- The body of the validation loop of generateQuiz for one question:
multiple-choice questions must pass `mcBadOptions` and `optionsInclude`
and are returned unchanged; fill-in-the-blank questions have their
options forced to the empty array; any other tag is an error. -/
def validateQuestion (q : CandidateQuestion) : Except ValidationError CandidateQuestion :=
  if q.questionType == "multiple_choice" then
    match q.options with
    | none => .error .invalidOptions
    | some xs =>
      if mcBadOptions xs then .error .invalidOptions
      else if optionsInclude xs q.correctAnswer then .ok q
      else .error .answerNotInOptions
  else if q.questionType == "fill_in_the_blank" then
    .ok { q with options := some [] }
  else
    .error (.unknownQuestionType q.questionType)

/-- The `for (const q of quizData.questions)` loop: the first failing
question aborts the whole validation; otherwise every question is
returned in order, normalized by `validateQuestion`. -/
def validateQuestions : List CandidateQuestion → Except ValidationError (List CandidateQuestion)
  | [] => .ok []
  | q :: qs =>
    match validateQuestion q with
    | .error e => .error e
    | .ok q' =>
      match validateQuestions qs with
      | .error e => .error e
      | .ok qs' => .ok (q' :: qs')

/-- The validation section of generateQuiz (lines 167 to 193): reject a
missing or non-array questions field, run the per-question loop, and
return the (in-place normalized) quiz data. No emptiness check is
performed on the questions array. -/
def validateQuizData (c : CandidateQuiz) : Except ValidationError CandidateQuiz :=
  match c.questions with
  | none => .error .missingQuestions
  | some qs =>
    match validateQuestions qs with
    | .error e => .error e
    | .ok qs' => .ok { c with questions := some qs' }

/-! ## Spec-side predicates for the multiple-choice rules -/

/-- The options rule as the spec words it: present, exactly 4 entries,
every entry a string that is non-empty after trimming. -/
def MCOptionsOk (opts : Option (List CandVal)) : Prop :=
  ∃ xs, opts = some xs ∧ xs.length = 4 ∧
    ∀ v ∈ xs, ∃ s, v = CandVal.str s ∧ jsTrim s ≠ ""

/-- The answer rule as the spec words it: the correct answer occurs,
as a string and case-sensitively, among the options. -/
def MCAnswerInOptions (opts : Option (List CandVal)) (ans : String) : Prop :=
  ∃ xs, opts = some xs ∧ CandVal.str ans ∈ xs

/-! ## Validated quiz data (src/types.ts) -/

inductive QType
  | multiple_choice
  | fill_in_the_blank
deriving DecidableEq, Repr

structure Question where
  questionText : String
  questionType : QType
  options : List String
  correctAnswer : String
  explanation : String
deriving DecidableEq, Repr

structure Quiz where
  topic : String
  questions : List Question
deriving DecidableEq, Repr

structure QuizSettings where
  topic : String
  documentContent : Option String
  numQuestions : Nat
  questionType : String
  difficulty : String
  duration : Nat
  language : String
deriving DecidableEq, Repr

structure QuizResult where
  id : String
  quiz : Quiz
  settings : QuizSettings
  userAnswers : List (Option String)
  score : Nat
  timeTaken : Int
  folderId : String
  tags : List String
deriving DecidableEq, Repr

/-! ## The quiz session state machine (QuizScreen) -/

/-- The translation overlay content of QuizScreen. -/
structure TranslatedContent where
  question : String
  options : Option (List String)
deriving DecidableEq, Repr

/-- The state of one quiz-taking session: the useState fields of
QuizScreen together with its immutable quiz and settings props. -/
structure Session where
  quiz : Quiz
  settings : QuizSettings
  currentQuestionIndex : Nat
  userAnswers : List (Option String)
  timeLeft : Int
  isPaused : Bool
  translatedContent : Option TranslatedContent
deriving DecidableEq, Repr

/-- The initial useState values of QuizScreen: question 0, all answers
null, the full time budget in seconds, running, no overlay. -/
def initialSession (quiz : Quiz) (settings : QuizSettings) : Session :=
  { quiz := quiz
    settings := settings
    currentQuestionIndex := 0
    userAnswers := List.replicate quiz.questions.length none
    timeLeft := (settings.duration : Int) * 60
    isPaused := false
    translatedContent := none }

/-- The score reduction of handleSubmit:
`userAnswers.reduce((acc, answer, index) => answer === quiz.questions[index].correctAnswer ? acc + 1 : acc, 0)`.
The answers list is index-aligned with the questions (a session
invariant), so the reduce is the match count over the zipped lists; a
null answer never equals a string. -/
def computeScore (quiz : Quiz) (answers : List (Option String)) : Nat :=
  (answers.zip quiz.questions).countP fun p => p.1 == some p.2.correctAnswer

/-- handleSubmit of QuizScreen: builds the QuizResult handed to
onComplete. The id, folderId and tags fields are placeholders that
App.tsx overwrites. No session field changes and no flag records that
the session already submitted. -/
def handleSubmit (s : Session) : QuizResult :=
  { id := ""
    quiz := s.quiz
    settings := s.settings
    userAnswers := s.userAnswers
    score := computeScore s.quiz s.userAnswers
    timeTaken := (s.settings.duration : Int) * 60 - s.timeLeft
    folderId := "uncategorized"
    tags := [] }

/-- handleQuizComplete of App.tsx: stamps a fresh id (modelled as the
parameter `newId`, from `Date.now().toString()`), resets folder and
tags, and prepends the result to the stored list. -/
def handleQuizComplete (newId : String) (prev : List QuizResult) (result : QuizResult) :
    List QuizResult :=
  { result with id := newId, folderId := "uncategorized", tags := [] } :: prev

/-- One firing of the countdown interval. The interval is installed by
the timer effect only while the session is not paused and time remains
(at `timeLeft <= 0` the effect submits instead of scheduling), and each
firing runs `setTimeLeft(prev => prev - 1)`. -/
def tick (s : Session) : Session :=
  if s.isPaused = false ∧ 0 < s.timeLeft then { s with timeLeft := s.timeLeft - 1 } else s

/-- The pause button: `setIsPaused(!isPaused)`. -/
def togglePause (s : Session) : Session :=
  { s with isPaused := !s.isPaused }

/-- The resume button of the pause overlay: `setIsPaused(false)`. -/
def resume (s : Session) : Session :=
  { s with isPaused := false }

/-- handleAnswerChange: copies userAnswers and writes the answer at the
current question index (always in range for a rendered session). -/
def handleAnswerChange (s : Session) (answer : String) : Session :=
  { s with userAnswers := s.userAnswers.set s.currentQuestionIndex (some answer) }

/-- changeQuestion: a no-op unless `0 <= newIndex < quiz.questions.length`;
on success it moves and clears the translation overlay. -/
def changeQuestion (s : Session) (newIndex : Int) : Session :=
  if 0 ≤ newIndex ∧ newIndex < (s.quiz.questions.length : Int) then
    { s with currentQuestionIndex := newIndex.toNat, translatedContent := none }
  else s

def goToNext (s : Session) : Session :=
  changeQuestion s ((s.currentQuestionIndex : Int) + 1)

def goToPrev (s : Session) : Session :=
  changeQuestion s ((s.currentQuestionIndex : Int) - 1)

def skipQuestion (s : Session) : Session :=
  goToNext s

/-! ## Translation -/

/-- The provider replies a translation round may consume: the batch
reply is the value of the translations field of the parsed JSON (or a
failure standing for a thrown or malformed response), the single reply
is the raw text of the single-string branch. -/
structure ProviderTranslate where
  batchReply : Except Unit (List String)
  singleReply : Except Unit String
deriving Repr

/-- The array branch of translateText: a reply whose translations array
does not have exactly the length of the input array is an error
(`AI translation response did not match the expected format`), caught
and rethrown as a translation failure. -/
def translateTextBatch (texts : List String) (reply : Except Unit (List String)) :
    Except Unit (List String) :=
  match reply with
  | .error _ => .error ()
  | .ok ts => if ts.length = texts.length then .ok ts else .error ()

/-- The texts handed to translateText for a multiple-choice question:
`[currentQuestion.questionText, ...currentQuestion.options]`. -/
def textsToTranslate (q : Question) : List String :=
  q.questionText :: q.options

/-- handleTranslate of QuizScreen: the overlay is cleared first; for a
multiple-choice current question the batch request is issued and the
reply length is re-checked against the request (a mismatch throws and is
caught, leaving the cleared overlay); for a fill-in-the-blank question
the single-string branch fills only the question field. An out-of-range
current index (unreachable for a rendered session) leaves the cleared
overlay. -/
def handleTranslate (s : Session) (p : ProviderTranslate) : Session :=
  match s.quiz.questions[s.currentQuestionIndex]? with
  | none => { s with translatedContent := none }
  | some q =>
    match q.questionType with
    | .multiple_choice =>
      match translateTextBatch (textsToTranslate q) p.batchReply with
      | .error _ => { s with translatedContent := none }
      | .ok ts =>
        if ts.length = (textsToTranslate q).length then
          match ts with
          | [] => { s with translatedContent := none }
          | tq :: topts => { s with translatedContent := some ⟨tq, some topts⟩ }
        else { s with translatedContent := none }
    | .fill_in_the_blank =>
      match p.singleReply with
      | .error _ => { s with translatedContent := none }
      | .ok t => { s with translatedContent := some ⟨t, none⟩ }

/-! ## Events and reachability -/

/-- The inputs a live session can consume, each dispatched to the
corresponding handler of QuizScreen. -/
inductive SessionEvent
  | tick
  | togglePause
  | resume
  | answer (a : String)
  | goto (i : Int)
  | nextQ
  | prevQ
  | skipQ
  | translate (p : ProviderTranslate)

def stepSession (s : Session) : SessionEvent → Session
  | .tick => tick s
  | .togglePause => togglePause s
  | .resume => resume s
  | .answer a => handleAnswerChange s a
  | .goto i => changeQuestion s i
  | .nextQ => goToNext s
  | .prevQ => goToPrev s
  | .skipQ => skipQuestion s
  | .translate p => handleTranslate s p

/-- Session states reachable from a fresh QuizScreen mount by any
sequence of events. -/
inductive Reachable : Session → Prop
  | init (quiz : Quiz) (settings : QuizSettings) : Reachable (initialSession quiz settings)
  | step {s : Session} (hs : Reachable s) (e : SessionEvent) : Reachable (stepSession s e)

/-- The session invariant: time left stays within the time budget and
the answers list stays index-aligned with the questions. -/
def SessionInv (s : Session) : Prop :=
  0 ≤ s.timeLeft ∧ s.timeLeft ≤ (s.settings.duration : Int) * 60 ∧
    s.userAnswers.length = s.quiz.questions.length

/-- A default question, used only as the out-of-range fallback of
`scoreByIndex`. -/
def defaultQuestion : Question :=
  { questionText := ""
    questionType := .multiple_choice
    options := []
    correctAnswer := ""
    explanation := "" }

/-- The score as the spec words it: the number of indices whose recorded
answer equals the correct answer of the question at the same index by
exact string match (a null answer never matches). -/
def scoreByIndex (s : Session) : Nat :=
  (List.range s.quiz.questions.length).countP fun i =>
    s.userAnswers.getD i none == some (s.quiz.questions.getD i defaultQuestion).correctAnswer

/-! ## Concrete inputs used by witnesses and counterexamples -/

/-- A candidate quiz whose questions array is present but empty. -/
def cexEmptyQuiz : CandidateQuiz :=
  { topic := "Photosynthesis", questions := some [] }

/-- A fill-in-the-blank candidate question whose question text trims to
the empty string. -/
def qBlankText : CandidateQuestion :=
  { questionText := some ""
    questionType := "fill_in_the_blank"
    options := some []
    correctAnswer := "4"
    explanation := some "arithmetic" }

def cexBlankText : CandidateQuiz :=
  { topic := "Numbers", questions := some [qBlankText] }

/-- A multiple-choice candidate question whose options repeat the entry
A at two positions. -/
def qDupOptions : CandidateQuestion :=
  { questionText := some "Pick the letter A"
    questionType := "multiple_choice"
    options := some [.str "A", .str "A", .str "B", .str "C"]
    correctAnswer := "A"
    explanation := some "it is A" }

def cexDupOptions : CandidateQuiz :=
  { topic := "Letters", questions := some [qDupOptions] }

/-- A well-formed multiple-choice candidate question. -/
def qMcValid : CandidateQuestion :=
  { questionText := some "Pick B"
    questionType := "multiple_choice"
    options := some [.str "A", .str "B", .str "C", .str "D"]
    correctAnswer := "B"
    explanation := some "it is B" }

/-- A fill-in-the-blank candidate question that arrives with a non-empty
options array. -/
def qFitbJunk : CandidateQuestion :=
  { questionText := some "2 + 2 = ?"
    questionType := "fill_in_the_blank"
    options := some [.str "junk"]
    correctAnswer := "4"
    explanation := some "arithmetic" }

def candFitb : CandidateQuiz :=
  { topic := "Math", questions := some [qFitbJunk] }

def candFitbValidated : CandidateQuiz :=
  { topic := "Math", questions := some [{ qFitbJunk with options := some [] }] }

def sampleQuestion : Question :=
  { questionText := "2 + 2 = ?"
    questionType := .fill_in_the_blank
    options := []
    correctAnswer := "4"
    explanation := "arithmetic" }

def sampleQuiz : Quiz :=
  { topic := "Math", questions := [sampleQuestion] }

def sampleSettings : QuizSettings :=
  { topic := "Math"
    documentContent := none
    numQuestions := 1
    questionType := "Fill in the Blank"
    difficulty := "Easy"
    duration := 10
    language := "" }

def sampleSession : Session :=
  initialSession sampleQuiz sampleSettings

def pausedSession : Session :=
  togglePause sampleSession

/-- The results list after submitting the same session twice, with two
freshly minted ids, starting from an empty store. -/
def doubleSubmitDemo : List QuizResult :=
  handleQuizComplete "2" (handleQuizComplete "1" [] (handleSubmit sampleSession))
    (handleSubmit sampleSession)

def mcQuestion : Question :=
  { questionText := "Capital of France?"
    questionType := .multiple_choice
    options := ["Paris", "Rome", "Berlin", "Madrid"]
    correctAnswer := "Paris"
    explanation := "geography" }

def mcQuiz : Quiz :=
  { topic := "Capitals", questions := [mcQuestion] }

def mcSession : Session :=
  initialSession mcQuiz sampleSettings

/-- A provider reply of 4 strings to a 5-string batch request. -/
def replyFour : ProviderTranslate :=
  { batchReply := .ok ["1", "2", "3", "4"], singleReply := .ok "x" }

/-! ## Validator lemmas -/

/-- The options check accepts exactly the lists of 4 strings that are
all non-empty after trimming. -/
theorem mcBadOptions_eq_false_iff (xs : List CandVal) :
    mcBadOptions xs = false ↔
      xs.length = 4 ∧ ∀ v ∈ xs, ∃ s, v = CandVal.str s ∧ jsTrim s ≠ "" := by
  simp only [mcBadOptions, Bool.or_eq_false_iff, bne_eq_false_iff_eq, List.any_eq_false]
  constructor
  · rintro ⟨h1, h2⟩
    refine ⟨h1, fun v hv => ?_⟩
    have hb := h2 v hv
    cases v with
    | str s => exact ⟨s, rfl, by simpa using hb⟩
    | nonstr => simp at hb
  · rintro ⟨h1, h2⟩
    refine ⟨h1, fun v hv => ?_⟩
    obtain ⟨s, rfl, hs⟩ := h2 v hv
    simpa using hs

/-- The includes check holds exactly when the answer occurs among the
options as a string. -/
theorem optionsInclude_iff (xs : List CandVal) (ans : String) :
    optionsInclude xs ans = true ↔ CandVal.str ans ∈ xs := by
  simp only [optionsInclude, List.any_eq_true]
  constructor
  · rintro ⟨v, hv, hm⟩
    cases v with
    | str s =>
      have : s = ans := by simpa using hm
      rw [← this]
      exact hv
    | nonstr => simp at hm
  · intro h
    exact ⟨CandVal.str ans, h, by simp⟩

theorem MCOptionsOk_some (xs : List CandVal) :
    MCOptionsOk (some xs) ↔
      xs.length = 4 ∧ ∀ v ∈ xs, ∃ s, v = CandVal.str s ∧ jsTrim s ≠ "" := by
  constructor
  · rintro ⟨ys, hy, h4, hall⟩
    cases hy
    exact ⟨h4, hall⟩
  · rintro ⟨h4, hall⟩
    exact ⟨xs, rfl, h4, hall⟩

theorem MCOptionsOk_none : ¬ MCOptionsOk none := by
  rintro ⟨xs, h, -⟩
  cases h

theorem MCAnswerInOptions_some (xs : List CandVal) (ans : String) :
    MCAnswerInOptions (some xs) ans ↔ CandVal.str ans ∈ xs := by
  constructor
  · rintro ⟨ys, hy, h⟩
    cases hy
    exact h
  · intro h
    exact ⟨xs, rfl, h⟩

theorem MCAnswerInOptions_none (ans : String) : ¬ MCAnswerInOptions none ans := by
  rintro ⟨xs, h, -⟩
  cases h

/-! ## Claim theorems: the validator -/

/-- C1 (counterexample): a candidate quiz whose questions field is the
empty array is accepted by the validation section of generateQuiz, and a
quiz value with zero questions is produced, so no EmptyQuiz failure
exists. -/
theorem emptyQuizAcceptedCex :
    cexEmptyQuiz.questions = some [] ∧
    validateQuizData cexEmptyQuiz = .ok cexEmptyQuiz := by
  exact ⟨rfl, rfl⟩

/-- C1 (amended): validation rejects only a missing or non-array
questions field; a candidate whose questions field is an empty sequence
passes validation unchanged and yields a quiz with zero questions. -/
theorem validateQuizData_empty_questions_ok (topic : String) :
    validateQuizData { topic := topic, questions := some [] } =
      .ok { topic := topic, questions := some [] } := rfl

/-- C2 (counterexample): a candidate quiz containing a question whose
questionText is the empty string (hence empty after trimming) is
accepted by the validator, so validation does not reject on blank
question text. -/
theorem blankQuestionTextAcceptedCex :
    qBlankText.questionText = some "" ∧ jsTrim "" = "" ∧
    validateQuizData cexBlankText = .ok cexBlankText := by
  exact ⟨rfl, rfl, by decide⟩

/-- C2 (amended): the validator never inspects questionText; replacing
the questionText of a candidate question, including by a missing or
blank one, changes the validation outcome only by carrying the new text
through. -/
theorem validateQuestion_ignores_questionText (q : CandidateQuestion) (t : Option String) :
    validateQuestion { q with questionText := t } =
      (validateQuestion q).map fun r => { r with questionText := t } := by
  rcases q with ⟨qt, ty, opts, ans, ex⟩
  unfold validateQuestion
  dsimp only
  by_cases h1 : (ty == "multiple_choice") = true
  · rw [if_pos h1, if_pos h1]
    rcases opts with _ | xs
    · rfl
    · dsimp only
      by_cases h2 : mcBadOptions xs = true
      · rw [if_pos h2, if_pos h2]; rfl
      · rw [if_neg h2, if_neg h2]
        by_cases h3 : optionsInclude xs ans = true
        · rw [if_pos h3, if_pos h3]; rfl
        · rw [if_neg h3, if_neg h3]; rfl
  · rw [if_neg h1, if_neg h1]
    by_cases h4 : (ty == "fill_in_the_blank") = true
    · rw [if_pos h4, if_pos h4]; rfl
    · rw [if_neg h4, if_neg h4]; rfl

/-- C4: the validator accepts a multiple-choice question whose options
repeat an entry, although the prompt embedded in generateQuiz demands 4
unique strings on pain of an error; the duplicate-options quiz passes
validation unchanged. -/
theorem duplicateOptionsAccepted :
    qDupOptions.options =
      some [CandVal.str "A", CandVal.str "A", CandVal.str "B", CandVal.str "C"] ∧
    ¬ ([CandVal.str "A", CandVal.str "A", CandVal.str "B", CandVal.str "C"]).Nodup ∧
    validateQuizData cexDupOptions = .ok cexDupOptions := by
  refine ⟨rfl, by decide, by decide⟩

/-- C5: for a multiple-choice candidate question the validator fails
with InvalidOptions exactly when the options are not 4 strings each
non-empty after trimming, fails with AnswerNotInOptions exactly when the
options pass that check but the correct answer is not case-sensitively
among them, and accepts the question unchanged when both rules hold. -/
theorem mcValidationCharacterized (q : CandidateQuestion)
    (h : q.questionType = "multiple_choice") :
    (validateQuestion q = .error .invalidOptions ↔ ¬ MCOptionsOk q.options) ∧
    (validateQuestion q = .error .answerNotInOptions ↔
      MCOptionsOk q.options ∧ ¬ MCAnswerInOptions q.options q.correctAnswer) ∧
    (MCOptionsOk q.options ∧ MCAnswerInOptions q.options q.correctAnswer →
      validateQuestion q = .ok q) := by
  have hb : (q.questionType == "multiple_choice") = true := by rw [h]; rfl
  unfold validateQuestion
  rw [if_pos hb]
  cases hq : q.options with
  | none =>
    refine ⟨⟨fun _ => MCOptionsOk_none, fun _ => rfl⟩, ⟨?_, ?_⟩, ?_⟩
    · intro he
      exact absurd (Except.error.inj he) (by decide)
    · rintro ⟨hok, -⟩
      exact absurd hok MCOptionsOk_none
    · rintro ⟨hok, -⟩
      exact absurd hok MCOptionsOk_none
  | some xs =>
    dsimp only
    by_cases hbad : mcBadOptions xs = true
    · rw [if_pos hbad]
      have hnot : ¬ MCOptionsOk (some xs) := by
        rw [MCOptionsOk_some]
        intro hok
        rw [(mcBadOptions_eq_false_iff xs).2 hok] at hbad
        cases hbad
      refine ⟨⟨fun _ => hnot, fun _ => rfl⟩, ⟨?_, ?_⟩, ?_⟩
      · intro he
        exact absurd (Except.error.inj he) (by decide)
      · rintro ⟨hok, -⟩
        exact absurd hok hnot
      · rintro ⟨hok, -⟩
        exact absurd hok hnot
    · rw [if_neg hbad]
      have hok : MCOptionsOk (some xs) := by
        rw [MCOptionsOk_some]
        exact (mcBadOptions_eq_false_iff xs).1 (Bool.eq_false_iff.2 hbad)
      by_cases hinc : optionsInclude xs q.correctAnswer = true
      · rw [if_pos hinc]
        have hmem : MCAnswerInOptions (some xs) q.correctAnswer :=
          (MCAnswerInOptions_some xs q.correctAnswer).2 ((optionsInclude_iff xs q.correctAnswer).1 hinc)
        refine ⟨⟨fun he => absurd he (by simp), fun hn => absurd hok hn⟩, ⟨?_, ?_⟩, ?_⟩
        · intro he
          cases he
        · rintro ⟨-, hno⟩
          exact absurd hmem hno
        · intro _
          rfl
      · rw [if_neg hinc]
        have hno : ¬ MCAnswerInOptions (some xs) q.correctAnswer := by
          rw [MCAnswerInOptions_some]
          intro hm
          exact hinc ((optionsInclude_iff xs q.correctAnswer).2 hm)
        refine ⟨⟨?_, ?_⟩, ⟨fun _ => ⟨hok, hno⟩, fun _ => rfl⟩, ?_⟩
        · intro he
          exact absurd (Except.error.inj he) (by decide)
        · intro hn
          exact absurd hok hn
        · rintro ⟨-, hmem⟩
          exact absurd hmem hno

/-- C5 (witness): the characterization instantiated at a well-formed
multiple-choice candidate question. -/
theorem mcValidationCharacterizedWitness :
    qMcValid.questionType = "multiple_choice" ∧
    ((validateQuestion qMcValid = .error .invalidOptions ↔ ¬ MCOptionsOk qMcValid.options) ∧
      (validateQuestion qMcValid = .error .answerNotInOptions ↔
        MCOptionsOk qMcValid.options ∧
          ¬ MCAnswerInOptions qMcValid.options qMcValid.correctAnswer) ∧
      (MCOptionsOk qMcValid.options ∧ MCAnswerInOptions qMcValid.options qMcValid.correctAnswer →
        validateQuestion qMcValid = .ok qMcValid)) :=
  ⟨rfl, mcValidationCharacterized qMcValid rfl⟩

/-- A question accepted by the per-question validation and carrying the
fill-in-the-blank tag comes out with an empty options array. -/
theorem validateQuestion_ok_fitb {q q' : CandidateQuestion}
    (h : validateQuestion q = .ok q') (hty : q'.questionType = "fill_in_the_blank") :
    q'.options = some [] := by
  unfold validateQuestion at h
  by_cases h1 : (q.questionType == "multiple_choice") = true
  · rw [if_pos h1] at h
    cases hq : q.options with
    | none => rw [hq] at h; cases h
    | some xs =>
      rw [hq] at h
      dsimp only at h
      by_cases h2 : mcBadOptions xs = true
      · rw [if_pos h2] at h; cases h
      · rw [if_neg h2] at h
        by_cases h3 : optionsInclude xs q.correctAnswer = true
        · rw [if_pos h3] at h
          have hqq : q = q' := Except.ok.inj h
          rw [← hqq] at hty
          rw [hty] at h1
          cases h1
        · rw [if_neg h3] at h; cases h
  · rw [if_neg h1] at h
    by_cases h2 : (q.questionType == "fill_in_the_blank") = true
    · rw [if_pos h2] at h
      have := Except.ok.inj h
      rw [← this]
    · rw [if_neg h2] at h; cases h

/-- Every question of a list accepted by the validation loop is the
validation image of some input question. -/
theorem validateQuestions_ok_mem {qs qs' : List CandidateQuestion}
    (h : validateQuestions qs = .ok qs') :
    ∀ q' ∈ qs', ∃ q ∈ qs, validateQuestion q = .ok q' := by
  induction qs generalizing qs' with
  | nil =>
    have : ([] : List CandidateQuestion) = qs' := Except.ok.inj h
    rw [← this]
    intro q' hq'
    cases hq'
  | cons q rest ih =>
    simp only [validateQuestions] at h
    cases hv : validateQuestion q with
    | error e => rw [hv] at h; cases h
    | ok q1 =>
      rw [hv] at h
      cases hr : validateQuestions rest with
      | error e => rw [hr] at h; cases h
      | ok rest' =>
        rw [hr] at h
        have : q1 :: rest' = qs' := Except.ok.inj h
        rw [← this]
        intro q' hq'
        rcases List.mem_cons.1 hq' with h' | h'
        · exact ⟨q, List.mem_cons_self q rest, by rw [hv, h']⟩
        · obtain ⟨q0, hq0, hok⟩ := ih hr q' h'
          exact ⟨q0, List.mem_cons_of_mem q hq0, hok⟩

/-- C6: in every quiz the validator accepts, each fill-in-the-blank
question carries an empty options array, whatever options the candidate
supplied; and a fill-in-the-blank candidate question is never rejected,
its options being overwritten by the empty array instead. -/
theorem fitbOptionsNormalized (c c' : CandidateQuiz)
    (h : validateQuizData c = .ok c') :
    (∀ qs', c'.questions = some qs' →
      ∀ q' ∈ qs', q'.questionType = "fill_in_the_blank" → q'.options = some []) ∧
    (∀ q : CandidateQuestion, q.questionType = "fill_in_the_blank" →
      validateQuestion q = .ok { q with options := some [] }) := by
  constructor
  · intro qs' hq' q' hmem hty
    unfold validateQuizData at h
    cases hc : c.questions with
    | none => rw [hc] at h; cases h
    | some qs0 =>
      rw [hc] at h
      dsimp only at h
      cases hv : validateQuestions qs0 with
      | error e => rw [hv] at h; cases h
      | ok qs1 =>
        rw [hv] at h
        have hcc : { c with questions := some qs1 } = c' := Except.ok.inj h
        rw [← hcc] at hq'
        have : qs1 = qs' := Option.some.inj hq'
        rw [← this] at hmem
        obtain ⟨q0, -, hok⟩ := validateQuestions_ok_mem hv q' hmem
        exact validateQuestion_ok_fitb hok hty
  · intro q hty
    unfold validateQuestion
    rw [hty]
    simp

/-- C6 (witness): a candidate quiz whose fill-in-the-blank question
arrives with a junk options array is accepted and comes out with the
options emptied. -/
theorem fitbOptionsNormalizedWitness :
    validateQuizData candFitb = .ok candFitbValidated ∧
    (∀ qs', candFitbValidated.questions = some qs' →
      ∀ q' ∈ qs', q'.questionType = "fill_in_the_blank" → q'.options = some []) :=
  ⟨by decide, (fitbOptionsNormalized candFitb candFitbValidated (by decide)).1⟩

/-! ## Claim theorems: submission and the results store -/

/-- C3 (counterexample): submitting the same session twice appends two
results to an initially empty store, not one, because neither
handleSubmit nor handleQuizComplete guards against a second call. -/
theorem doubleSubmitTwoResults : doubleSubmitDemo.length = 2 := rfl

/-- C3 (amended): every call of submit emits a QuizResult and prepends
it to the stored list; a second call on the same session prepends a
second copy with its own fresh id, so double-submit is not an
idempotent no-op at the state-machine level. -/
theorem submitAppendsEachCall (s : Session) (prev : List QuizResult) (i1 i2 : String) :
    handleQuizComplete i2 (handleQuizComplete i1 prev (handleSubmit s)) (handleSubmit s) =
      { handleSubmit s with id := i2, folderId := "uncategorized", tags := [] } ::
        { handleSubmit s with id := i1, folderId := "uncategorized", tags := [] } :: prev := rfl

/-! ## Session machine lemmas -/

/-- handleTranslate touches only the translation overlay. -/
theorem handleTranslate_eq (s : Session) (p : ProviderTranslate) :
    ∃ tc, handleTranslate s p = { s with translatedContent := tc } := by
  unfold handleTranslate
  cases s.quiz.questions[s.currentQuestionIndex]? with
  | none => exact ⟨none, rfl⟩
  | some q =>
    dsimp only
    cases q.questionType with
    | multiple_choice =>
      cases translateTextBatch (textsToTranslate q) p.batchReply with
      | error e => exact ⟨none, rfl⟩
      | ok ts =>
        dsimp only
        by_cases hl : ts.length = (textsToTranslate q).length
        · rw [if_pos hl]
          cases ts with
          | nil => exact ⟨none, rfl⟩
          | cons tq topts => exact ⟨some ⟨tq, some topts⟩, rfl⟩
        · rw [if_neg hl]
          exact ⟨none, rfl⟩
    | fill_in_the_blank =>
      cases p.singleReply with
      | error e => exact ⟨none, rfl⟩
      | ok t => exact ⟨some ⟨t, none⟩, rfl⟩

/-- The session invariant holds in every reachable session state. -/
theorem reachable_inv {s : Session} (hs : Reachable s) : SessionInv s := by
  induction hs with
  | init quiz settings =>
    refine ⟨?_, le_refl _, ?_⟩
    · simp only [initialSession]
      positivity
    · simp [initialSession]
  | @step s hs e ih =>
    obtain ⟨h1, h2, h3⟩ := ih
    cases e with
    | tick =>
      simp only [stepSession, tick]
      split
      · next hc =>
        refine ⟨?_, ?_, h3⟩
        · show (0 : Int) ≤ s.timeLeft - 1
          omega
        · show s.timeLeft - 1 ≤ (s.settings.duration : Int) * 60
          omega
      · exact ⟨h1, h2, h3⟩
    | togglePause => exact ⟨h1, h2, h3⟩
    | resume => exact ⟨h1, h2, h3⟩
    | answer a =>
      refine ⟨h1, h2, ?_⟩
      simpa [stepSession, handleAnswerChange] using h3
    | goto i =>
      simp only [stepSession, changeQuestion]
      split
      · exact ⟨h1, h2, h3⟩
      · exact ⟨h1, h2, h3⟩
    | nextQ =>
      simp only [stepSession, goToNext, changeQuestion]
      split
      · exact ⟨h1, h2, h3⟩
      · exact ⟨h1, h2, h3⟩
    | prevQ =>
      simp only [stepSession, goToPrev, changeQuestion]
      split
      · exact ⟨h1, h2, h3⟩
      · exact ⟨h1, h2, h3⟩
    | skipQ =>
      simp only [stepSession, skipQuestion, goToNext, changeQuestion]
      split
      · exact ⟨h1, h2, h3⟩
      · exact ⟨h1, h2, h3⟩
    | translate p =>
      obtain ⟨tc, htc⟩ := handleTranslate_eq s p
      simp only [stepSession]
      rw [htc]
      exact ⟨h1, h2, h3⟩

/-- Counting matches over index-aligned zipped lists equals counting the
matching indices. -/
theorem countP_zip_eq_range {α β : Type} (da : α) (db : β) (f : α → β → Bool) :
    ∀ (as : List α) (bs : List β), as.length = bs.length →
      (as.zip bs).countP (fun p => f p.1 p.2) =
      (List.range bs.length).countP fun i => f (as.getD i da) (bs.getD i db) := by
  intro as
  induction as with
  | nil =>
    intro bs h
    cases bs with
    | nil => rfl
    | cons b bs => cases h
  | cons a as ih =>
    intro bs h
    cases bs with
    | nil => cases h
    | cons b bs =>
      have h' : as.length = bs.length := by simpa using h
      simp only [List.zip_cons_cons, List.countP_cons, List.length_cons]
      rw [List.range_succ_eq_map, List.countP_cons, List.countP_map]
      simp only [Function.comp_def, List.getD_cons_zero, List.getD_cons_succ]
      rw [ih bs h']

/-! ## Claim theorems: scoring, timing, pausing, translation -/

/-- C7: each submission of a reachable session (the timer-expiry path
invokes the same handleSubmit as the manual one) scores exactly the
indices whose recorded answer string-equals the correct answer of the
question at that index (a null answer never matches), and records
timeTaken as the full budget minus the remaining time, a value that is
never negative. -/
theorem submitScoreAndTime (s : Session) (hs : Reachable s) :
    (handleSubmit s).score = scoreByIndex s ∧
    (handleSubmit s).timeTaken = (s.settings.duration : Int) * 60 - s.timeLeft ∧
    0 ≤ (handleSubmit s).timeTaken := by
  obtain ⟨h1, h2, h3⟩ := reachable_inv hs
  refine ⟨?_, rfl, ?_⟩
  · show computeScore s.quiz s.userAnswers = scoreByIndex s
    unfold computeScore scoreByIndex
    exact countP_zip_eq_range none defaultQuestion
      (fun a q => a == some q.correctAnswer) s.userAnswers s.quiz.questions h3
  · show (0 : Int) ≤ (s.settings.duration : Int) * 60 - s.timeLeft
    omega

/-- C7 (witness): the scoring and timing facts at a freshly created
session. -/
theorem submitScoreAndTimeWitness :
    (handleSubmit sampleSession).score = scoreByIndex sampleSession ∧
    (handleSubmit sampleSession).timeTaken =
      (sampleSession.settings.duration : Int) * 60 - sampleSession.timeLeft ∧
    0 ≤ (handleSubmit sampleSession).timeTaken :=
  submitScoreAndTime sampleSession (Reachable.init sampleQuiz sampleSettings)

/-- C10: the score of every submission of a reachable session is an
integer between 0 and the number of questions, and the recorded answers
stay index-aligned with the questions. -/
theorem submitScoreBounds (s : Session) (hs : Reachable s) :
    0 ≤ (handleSubmit s).score ∧
    (handleSubmit s).score ≤ s.quiz.questions.length ∧
    s.userAnswers.length = s.quiz.questions.length := by
  obtain ⟨-, -, h3⟩ := reachable_inv hs
  refine ⟨Nat.zero_le _, ?_, h3⟩
  show computeScore s.quiz s.userAnswers ≤ s.quiz.questions.length
  unfold computeScore
  calc (s.userAnswers.zip s.quiz.questions).countP
        (fun p => p.1 == some p.2.correctAnswer)
      ≤ (s.userAnswers.zip s.quiz.questions).length := List.countP_le_length _
    _ ≤ s.quiz.questions.length := by
        rw [List.length_zip]
        omega

/-- C10 (witness): the score bounds at a freshly created session. -/
theorem submitScoreBoundsWitness :
    0 ≤ (handleSubmit mcSession).score ∧
    (handleSubmit mcSession).score ≤ mcSession.quiz.questions.length ∧
    mcSession.userAnswers.length = mcSession.quiz.questions.length :=
  submitScoreBounds mcSession (Reachable.init mcQuiz sampleSettings)

/-- A tick on a paused session is the identity. -/
theorem tick_paused {s : Session} (hp : s.isPaused = true) : tick s = s := by
  unfold tick
  rw [if_neg]
  rintro ⟨h, -⟩
  rw [hp] at h
  cases h

/-- A tick on a running session with time remaining decrements the
clock by one second and changes nothing else. -/
theorem tick_active {s : Session} (hp : s.isPaused = false) (ht : 0 < s.timeLeft) :
    tick s = { s with timeLeft := s.timeLeft - 1 } := by
  unfold tick
  rw [if_pos ⟨hp, ht⟩]

/-- Iterated ticks on a running session count the clock down one second
each, as long as time remains, and leave the session running. -/
theorem tick_iterate_active :
    ∀ (m : Nat) (s : Session), s.isPaused = false → (m : Int) ≤ s.timeLeft →
      (tick^[m] s).timeLeft = s.timeLeft - m ∧ (tick^[m] s).isPaused = false := by
  intro m
  induction m with
  | zero =>
    intro s hp _
    simpa using hp
  | succ k ih =>
    intro s hp hle
    have h0 : 0 < s.timeLeft := by
      push_cast at hle
      omega
    rw [Function.iterate_succ_apply, tick_active hp h0]
    have hk := ih { s with timeLeft := s.timeLeft - 1 } hp
      (by push_cast at hle ⊢; omega)
    refine ⟨?_, hk.2⟩
    rw [hk.1]
    show s.timeLeft - 1 - (k : Int) = s.timeLeft - ((k : Nat) + 1 : Nat)
    push_cast
    ring

/-- C8: while the session is paused, ticking any number of times leaves
the whole session state unchanged, the clock included; after resuming,
ticking decrements the frozen clock by exactly one per tick, so m ticks
take exactly m seconds off, as long as time remains. -/
theorem pauseFreezesResumeTicks (s : Session) (hp : s.isPaused = true)
    (n m : Nat) (hm : (m : Int) ≤ s.timeLeft) :
    tick^[n] s = s ∧ (tick^[m] (resume s)).timeLeft = s.timeLeft - m := by
  refine ⟨Function.iterate_fixed (tick_paused hp) n, ?_⟩
  exact (tick_iterate_active m (resume s) rfl hm).1

/-- C8 (witness): ten ticks on a paused 600-second session change
nothing; ten ticks after resuming remove exactly ten seconds. -/
theorem pauseFreezesResumeTicksWitness :
    pausedSession.isPaused = true ∧ ((10 : Nat) : Int) ≤ pausedSession.timeLeft ∧
    (tick^[10] pausedSession = pausedSession ∧
      (tick^[10] (resume pausedSession)).timeLeft = pausedSession.timeLeft - (10 : Nat)) :=
  ⟨rfl, by decide, pauseFreezesResumeTicks pausedSession rfl 10 10 (by decide)⟩

/-- C9: translating a 4-option multiple-choice question sends exactly 5
strings (the question text and the 4 options) to the provider, and a
provider reply whose translations array has any other length leaves the
translation overlay empty while every other session field is unchanged,
a non-fatal outcome. -/
theorem translateMismatchLeavesOverlayEmpty (s : Session) (q : Question)
    (p : ProviderTranslate) (ts : List String)
    (hq : s.quiz.questions[s.currentQuestionIndex]? = some q)
    (hmc : q.questionType = QType.multiple_choice)
    (h4 : q.options.length = 4)
    (hr : p.batchReply = .ok ts)
    (hlen : ts.length ≠ 5) :
    (textsToTranslate q).length = 5 ∧
    handleTranslate s p = { s with translatedContent := none } := by
  have hlen5 : (textsToTranslate q).length = 5 := by
    simp [textsToTranslate, h4]
  refine ⟨hlen5, ?_⟩
  unfold handleTranslate
  rw [hq]
  dsimp only
  rw [hmc]
  have hbatch : translateTextBatch (textsToTranslate q) p.batchReply = .error () := by
    rw [hr]
    unfold translateTextBatch
    dsimp only
    rw [hlen5, if_neg hlen]
  rw [hbatch]

/-- C9 (witness): a 4-string reply to the 5-string request of a
4-option multiple-choice question leaves the overlay empty. -/
theorem translateMismatchLeavesOverlayEmptyWitness :
    mcSession.quiz.questions[mcSession.currentQuestionIndex]? = some mcQuestion ∧
    mcQuestion.questionType = QType.multiple_choice ∧
    mcQuestion.options.length = 4 ∧
    replyFour.batchReply = .ok ["1", "2", "3", "4"] ∧
    (["1", "2", "3", "4"] : List String).length ≠ 5 ∧
    ((textsToTranslate mcQuestion).length = 5 ∧
      handleTranslate mcSession replyFour = { mcSession with translatedContent := none }) :=
  ⟨by decide, rfl, by decide, rfl, by decide,
    translateMismatchLeavesOverlayEmpty mcSession mcQuestion replyFour ["1", "2", "3", "4"]
      (by decide) rfl (by decide) rfl (by decide)⟩

end MagicMock
